import Mathlib

/-!
Shallow embedding of the `nav` interactive directory picker (`main.go`).

Strings are modelled as `List Char` (one entry per rune); the Go byte/rune
distinction is immaterial for the properties below.  Scores (`float32` in the
source, used only for comparisons and exact small sums) are modelled as `ℚ`.
Goroutine-dispatched follow-up work (`go b.Recalculate()` and the
recalculate-and-select goroutines spawned by query edits) is modelled as
running to completion, matching the spec's atomic-operation reading.
-/

namespace Nav

/-- From `delim` in main.go: the word-delimiter classification. -/
def delim (r : Char) : Bool :=
  r = '\\' || r = '/' || r = ' ' || r = '.' || r = '\t' || r = ',' || r = '-' || r = '|'

/-- From `word` in main.go. -/
def word (r : Char) : Bool := !delim r

/-- The `searchBox` struct of main.go (drawing-only fields omitted:
`cursorOffsetY` is never written and the mutex is the atomicity model). -/
structure SearchBox where
  basepath : List Char
  cursorOffsetX : Int
  value : List Char
deriving DecidableEq

/-- `strings.TrimRightFunc`: drop the longest suffix of characters
satisfying `p`. -/
def trimRight (p : Char → Bool) (l : List Char) : List Char :=
  (l.reverse.dropWhile p).reverse

/-- From `searchBox.MoveCursorOneRuneBackward`. -/
def MoveCursorOneRuneBackward (b : SearchBox) : SearchBox :=
  if b.cursorOffsetX ≤ 0 then b else { b with cursorOffsetX := b.cursorOffsetX - 1 }

/-- From `searchBox.MoveCursorOneRuneForward`. -/
def MoveCursorOneRuneForward (b : SearchBox) : SearchBox :=
  if (b.value.length : Int) ≤ b.cursorOffsetX then b
  else { b with cursorOffsetX := b.cursorOffsetX + 1 }

/-- From `searchBox.MoveCursorOneWordBackward`: trim trailing delimiters,
then one word, off the text left of the cursor. -/
def MoveCursorOneWordBackward (b : SearchBox) : SearchBox :=
  if b.cursorOffsetX ≤ 0 then b
  else
    let pfx := b.value.take b.cursorOffsetX.toNat
    let pfx := trimRight delim pfx
    let pfx := trimRight word pfx
    { b with cursorOffsetX := (pfx.length : Int) }

/-- From `searchBox.MoveCursorOneWordForward`: trim leading delimiters,
then one word, off the text right of the cursor. -/
def MoveCursorOneWordForward (b : SearchBox) : SearchBox :=
  if (b.value.length : Int) ≤ b.cursorOffsetX then b
  else
    let sfx := b.value.drop b.cursorOffsetX.toNat
    let sfx := (sfx.dropWhile delim).dropWhile word
    { b with cursorOffsetX := (b.value.length : Int) - (sfx.length : Int) }

/-- From `searchBox.InsertRune`. -/
def InsertRune (r : Char) (b : SearchBox) : SearchBox :=
  { b with
    value := b.value.take b.cursorOffsetX.toNat ++ r :: b.value.drop b.cursorOffsetX.toNat,
    cursorOffsetX := b.cursorOffsetX + 1 }

/-- From `searchBox.DeleteRuneBackward` (boundary guard included). -/
def DeleteRuneBackward (b : SearchBox) : SearchBox :=
  if b.cursorOffsetX ≤ 0 then b
  else { b with
         value := b.value.take (b.cursorOffsetX.toNat - 1) ++ b.value.drop b.cursorOffsetX.toNat,
         cursorOffsetX := b.cursorOffsetX - 1 }

/-- From `searchBox.DeleteRuneForward` (boundary guard included). -/
def DeleteRuneForward (b : SearchBox) : SearchBox :=
  if (b.value.length : Int) ≤ b.cursorOffsetX then b
  else { b with
         value := b.value.take b.cursorOffsetX.toNat ++ b.value.drop (b.cursorOffsetX.toNat + 1) }

/-- From `searchBox.DeleteWordBackward`. -/
def DeleteWordBackward (b : SearchBox) : SearchBox :=
  if b.cursorOffsetX ≤ 0 then b
  else
    let pfx := b.value.take b.cursorOffsetX.toNat
    let sfx := b.value.drop b.cursorOffsetX.toNat
    let pfx := trimRight delim pfx
    let pfx := trimRight word pfx
    { b with value := pfx ++ sfx, cursorOffsetX := (pfx.length : Int) }

/-- `strings.IndexRune` on the char-list model: index of the first
occurrence of `q`, or `none`. -/
def indexRune (l : List Char) (q : Char) : Option Nat :=
  match l with
  | [] => none
  | c :: cs => if c = q then some 0 else (indexRune cs q).map (· + 1)

/-- The scanning loop of `searchBox.Score`: for each query character,
lowercase the unscanned remainder of the candidate, find the query
character's lowercase form, and advance strictly past it, accumulating the
advance distance.  Returns `none` when some query character is unmatched,
otherwise the total accumulated weight. -/
def scoreAux : List Char → List Char → Option Nat
  | [], _ => some 0
  | q :: qs, s =>
    let low := s.map Char.toLower
    match indexRune low q.toLower with
    | none => none
    | some idx => (scoreAux qs (low.drop (idx + 1))).map (· + (idx + 1))

/-- From `searchBox.Score` (with `displayPath` already applied: `rel` is the
candidate's root-relative path).  The Go accumulator starts at 1 and adds
`idx+1` per matched character, so a full match returns `1 / (1 + weight)`. -/
def Score (query rel : List Char) : ℚ :=
  if query = [] then 1
  else
    match scoreAux query rel with
    | none => 0
    | some w => 1 / (1 + (w : ℚ))

/-- Modelled from the spec and `filepath.Rel` as used by
`searchBox.displayPath`: every stored candidate is the root itself or a
strict descendant `basepath ++ "/" ++ rel`, for which `filepath.Rel`
returns `"."` or `rel` respectively. -/
def displayPath (basepath path : List Char) : List Char :=
  if path = basepath then ['.'] else path.drop (basepath.length + 1)

/-- `searchBox.Score` as the resultsBox uses it: score of a stored
(absolute) candidate path against the current query. -/
def scoreOf (sb : SearchBox) (path : List Char) : ℚ :=
  Score sb.value (displayPath sb.basepath path)

/-- The `resultsBox` struct of main.go. -/
structure ResultsBox where
  matchList : List (List Char)
  selected : Int
  displayOffsetY : Int
  filepaths : List (List Char)
deriving DecidableEq

/-- From `resultsBox.Recalculate`: rebuild `matchList` as the
positive-scoring filepaths in order, then clamp `selected` from above. -/
def Recalculate (sb : SearchBox) (b : ResultsBox) : ResultsBox :=
  let ms := b.filepaths.filter fun p => decide (0 < scoreOf sb p)
  { b with
    matchList := ms
    selected := if (ms.length : Int) ≤ b.selected then (ms.length : Int) - 1 else b.selected }

/-- Go `string <` (lexicographic order), on the char-list model. -/
def lexLt : List Char → List Char → Bool
  | [], [] => false
  | [], _ :: _ => true
  | _ :: _, [] => false
  | a :: as, b :: bs => if a = b then lexLt as bs else decide (a < b)

/-- The `sort.Slice` comparator of `resultsBox.AppendFilepaths`: score
descending, then length ascending, then lexical. -/
def pathLess (sb : SearchBox) (a b : List Char) : Bool :=
  let si := scoreOf sb a
  let sj := scoreOf sb b
  if si = sj then
    if a.length = b.length then lexLt a b
    else decide (a.length < b.length)
  else decide (sj < si)

/-- From `resultsBox.AppendFilepaths`: append the batch and re-sort the
whole candidate list by the merge-time comparator (`sort.Slice` leaves the
algorithm unspecified; modelled as a sort over the not-greater relation of
the comparator). -/
def AppendFilepaths (sb : SearchBox) (b : ResultsBox) (new : List (List Char)) : ResultsBox :=
  { b with filepaths := (b.filepaths ++ new).insertionSort fun x y => pathLess sb y x = false }

/-- From `resultsBox.focusTop`. -/
def focusTop (b : ResultsBox) : ResultsBox :=
  { b with displayOffsetY := b.selected }

/-- From `resultsBox.focusBottom` (display height `h` passed in for
`termbox.Size`). -/
def focusBottom (h : Int) (b : ResultsBox) : ResultsBox :=
  { b with displayOffsetY := b.selected - (h - 3) + 1 }

/-- From `resultsBox.MoveSelectionDownOne`. -/
def MoveSelectionDownOne (h : Int) (b : ResultsBox) : ResultsBox :=
  let b := if b.selected < (b.matchList.length : Int) - 1 then
             { b with selected := b.selected + 1 } else b
  let b := if b.selected < b.displayOffsetY then focusTop b else b
  if b.displayOffsetY + (h - 4) < b.selected then focusBottom h b else b

/-- From `resultsBox.MoveSelectionUpOne`. -/
def MoveSelectionUpOne (h : Int) (b : ResultsBox) : ResultsBox :=
  let b := if 0 < b.selected then { b with selected := b.selected - 1 } else b
  let b := if b.selected < b.displayOffsetY then focusTop b else b
  if b.displayOffsetY + (h - 4) < b.selected then focusBottom h b else b

/-- From `resultsBox.MouseScrollDown`. -/
def MouseScrollDown (h : Int) (b : ResultsBox) : ResultsBox :=
  if (b.matchList.length : Int) - b.displayOffsetY < h - 3 then b
  else { b with displayOffsetY := b.displayOffsetY + 1 }

/-- From `resultsBox.MouseScrollUp`. -/
def MouseScrollUp (b : ResultsBox) : ResultsBox :=
  if b.displayOffsetY ≤ 0 then b
  else { b with displayOffsetY := b.displayOffsetY - 1 }

/-- From `resultsBox.MousePress` (the goroutine-dispatched scrolls modelled
as executed). -/
def MousePress (h y : Int) (b : ResultsBox) : ResultsBox :=
  if y - 3 < 0 then MouseScrollUp b
  else if (b.matchList.length : Int) ≤ y - 3 then MouseScrollDown h b
  else { b with selected := y + b.displayOffsetY - 3 }

/-- The loop of `resultsBox.SelectBestMatch`. -/
def selectBestAux (sb : SearchBox) : List (List Char) → Nat → ℚ → Int → Int
  | [], _, _, sel => sel
  | m :: ms, i, best, sel =>
    if best < scoreOf sb m then selectBestAux sb ms (i + 1) (scoreOf sb m) (i : Int)
    else selectBestAux sb ms (i + 1) best sel

/-- From `resultsBox.SelectBestMatch` (`bestScore` starts at float zero). -/
def SelectBestMatch (sb : SearchBox) (b : ResultsBox) : ResultsBox :=
  { b with selected := selectBestAux sb b.matchList 0 0 b.selected }

/-- From `resultsBox.Selected`; `none` models the Go panic when
`b.matchList[b.selected]` indexes out of range. -/
def SelectedResult (b : ResultsBox) : Option (List Char) :=
  if b.selected < 0 ∨ b.matchList = [] then some ['.']
  else b.matchList[b.selected.toNat]?

/-- The `evType` constants of main.go, in declaration (iota) order: the Go
zero value of the `event` struct therefore carries
`moveCursorForwardOneRune`. -/
inductive EvT where
  | moveCursorForwardOneRune
  | moveCursorBackwardOneRune
  | moveCursorForwardOneWord
  | moveCursorBackwardOneWord
  | deleteRuneForward
  | deleteRuneBackward
  | deleteWordBackward
  | insertRuneEv
  | moveSelectionDownOne
  | moveSelectionUpOne
  | selectedEv
  | mouseDrag
  | mousePressEv
  | mouseClick
  | mouseScrollDown
  | mouseScrollUp
  | shutdown
  | errorEv
deriving DecidableEq

/-- The `event` struct of main.go (the `err` field omitted). -/
structure TermEvent where
  evType : EvT
  ch : Char
  mouseX : Int
  mouseY : Int
deriving DecidableEq

/-- The zero value of the Go `event` struct. -/
def zeroEvent : TermEvent :=
  { evType := .moveCursorForwardOneRune, ch := Char.ofNat 0, mouseX := 0, mouseY := 0 }

/-- The mouse-key classification of `termbox` events reaching `pollEvents`. -/
inductive MouseKey where
  | release
  | wheelDown
  | wheelUp
  | left
  | other
deriving DecidableEq

/-- One mouse iteration of `pollEvents`: from the previous emitted event and
the incoming termbox mouse key, compute `curr`, which becomes both the new
`prev` and the event sent (best-effort) to the loop.  In the suppression
and default branches `curr` is left at the Go zero value — which is still
sent. -/
def mouseStep (prev : TermEvent) (k : MouseKey) (x y : Int) : TermEvent :=
  match k with
  | .release =>
    if prev.evType = .mousePressEv then
      { zeroEvent with evType := .mouseClick, mouseX := x, mouseY := y }
    else zeroEvent
  | .wheelDown => { zeroEvent with evType := .mouseScrollDown, mouseX := x, mouseY := y }
  | .wheelUp => { zeroEvent with evType := .mouseScrollUp, mouseX := x, mouseY := y }
  | .left =>
    if prev.evType = .mousePressEv ∨ prev.evType = .mouseDrag then
      { zeroEvent with evType := .mouseDrag, mouseX := x, mouseY := y }
    else { zeroEvent with evType := .mousePressEv, mouseX := x, mouseY := y }
  | .other => zeroEvent

/-- The combined interactive state: the `search` and `results` globals. -/
structure AppState where
  search : SearchBox
  results : ResultsBox
deriving DecidableEq

/-- The recalculate-and-reselect goroutine spawned by content-changing
query edits. -/
def recalcAndSelect (s : AppState) : AppState :=
  { s with results := SelectBestMatch s.search (Recalculate s.search s.results) }

/-- The abstract commands applied by the `run` event loop, plus crawler
batch arrival (`AppendFilepaths` with its `go Recalculate`). -/
inductive Op where
  | insertRune (c : Char)
  | deleteRuneBackward
  | deleteRuneForward
  | deleteWordBackward
  | moveCursorRuneBackward
  | moveCursorRuneForward
  | moveCursorWordBackward
  | moveCursorWordForward
  | moveSelectionDown (h : Int)
  | moveSelectionUp (h : Int)
  | mousePress (h y : Int)
  | mouseScrollDown (h : Int)
  | mouseScrollUp
  | appendBatch (ps : List (List Char))
deriving DecidableEq

/-- One sequential step of the session, dispatching exactly as `run` does
(content-changing edits trigger the recalculate-and-reselect pass; the
boundary guards that return before spawning it are honoured). -/
def step (s : AppState) : Op → AppState
  | .insertRune c => recalcAndSelect { s with search := InsertRune c s.search }
  | .deleteRuneBackward =>
    if s.search.cursorOffsetX ≤ 0 then s
    else recalcAndSelect { s with search := DeleteRuneBackward s.search }
  | .deleteRuneForward =>
    if (s.search.value.length : Int) ≤ s.search.cursorOffsetX then s
    else recalcAndSelect { s with search := DeleteRuneForward s.search }
  | .deleteWordBackward =>
    if s.search.cursorOffsetX ≤ 0 then s
    else recalcAndSelect { s with search := DeleteWordBackward s.search }
  | .moveCursorRuneBackward => { s with search := MoveCursorOneRuneBackward s.search }
  | .moveCursorRuneForward => { s with search := MoveCursorOneRuneForward s.search }
  | .moveCursorWordBackward => { s with search := MoveCursorOneWordBackward s.search }
  | .moveCursorWordForward => { s with search := MoveCursorOneWordForward s.search }
  | .moveSelectionDown h => { s with results := MoveSelectionDownOne h s.results }
  | .moveSelectionUp h => { s with results := MoveSelectionUpOne h s.results }
  | .mousePress h y => { s with results := MousePress h y s.results }
  | .mouseScrollDown h => { s with results := MouseScrollDown h s.results }
  | .mouseScrollUp => { s with results := MouseScrollUp s.results }
  | .appendBatch ps =>
    { s with results := Recalculate s.search (AppendFilepaths s.search s.results ps) }

/-- The command dispatch of `run` for a delivered event (confirm/cancel and
the read-only click handling leave the state unchanged). -/
def runStep (h : Int) (s : AppState) (e : TermEvent) : AppState :=
  match e.evType with
  | .insertRuneEv => step s (.insertRune e.ch)
  | .moveCursorBackwardOneRune => step s .moveCursorRuneBackward
  | .moveCursorForwardOneRune => step s .moveCursorRuneForward
  | .moveCursorBackwardOneWord => step s .moveCursorWordBackward
  | .moveCursorForwardOneWord => step s .moveCursorWordForward
  | .deleteRuneBackward => step s .deleteRuneBackward
  | .deleteRuneForward => step s .deleteRuneForward
  | .deleteWordBackward => step s .deleteWordBackward
  | .moveSelectionDownOne => step s (.moveSelectionDown h)
  | .moveSelectionUpOne => step s (.moveSelectionUp h)
  | .mouseDrag => step s (.mousePress h e.mouseY)
  | .mousePressEv => step s (.mousePress h e.mouseY)
  | .mouseScrollDown => step s (.mouseScrollDown h)
  | .mouseScrollUp => step s .mouseScrollUp
  | .mouseClick => s
  | .selectedEv => s
  | .shutdown => s
  | .errorEv => s

/-- The spec's Selection data-model invariant:
`Selection ∈ [-1, length(MatchList) - 1]` and `Selection = -1` iff
MatchList is empty. -/
def SelInv (b : ResultsBox) : Prop :=
  -1 ≤ b.selected ∧ b.selected ≤ (b.matchList.length : Int) - 1
    ∧ (b.selected = -1 ↔ b.matchList = [])

instance (b : ResultsBox) : Decidable (SelInv b) := by
  unfold SelInv
  infer_instance

/-! ## Helper lemmas -/

theorem toLower_toNat (n : Nat) (h1 : 65 ≤ n) (h2 : n ≤ 90) :
    (Char.ofNat (n + 32)).toNat = n + 32 := by
  have hv : (n + 32).isValidChar := Or.inl (by omega)
  rw [Char.ofNat, dif_pos hv]
  simp only [Char.ofNatAux, Char.toNat, UInt32.toNat]
  rw [BitVec.toNat_ofNatLt]

theorem toLower_idem (c : Char) : c.toLower.toLower = c.toLower := by
  by_cases h : 65 ≤ c.toNat ∧ c.toNat ≤ 90
  · have h1 : c.toLower = Char.ofNat (c.toNat + 32) := by
      unfold Char.toLower
      rw [if_pos ⟨h.1, h.2⟩]
    rw [h1]
    conv_lhs => unfold Char.toLower
    rw [if_neg]
    simp only [toLower_toNat c.toNat h.1 h.2]
    omega
  · have h1 : c.toLower = c := by
      unfold Char.toLower
      rw [if_neg fun hc => h ⟨hc.1, hc.2⟩]
    rw [h1, h1]

theorem map_toLower_idem (l : List Char) :
    (l.map Char.toLower).map Char.toLower = l.map Char.toLower := by
  rw [List.map_map]
  exact List.map_congr_left fun c _ => toLower_idem c

theorem trimRight_length_le (p : Char → Bool) (l : List Char) :
    (trimRight p l).length ≤ l.length := by
  have h := (List.dropWhile_sublist (l := l.reverse) p).length_le
  simpa [trimRight] using h

theorem dropWhile_length_le (p : Char → Bool) (l : List Char) :
    (l.dropWhile p).length ≤ l.length :=
  (List.dropWhile_sublist p).length_le

theorem scoreOf_pos_iff (sb : SearchBox) (p : List Char) :
    0 < scoreOf sb p
      ↔ (decide (sb.value = [])
          || (scoreAux sb.value (displayPath sb.basepath p)).isSome) = true := by
  unfold scoreOf Score
  split
  · next h => simp [h]
  · next h =>
    cases hw : scoreAux sb.value (displayPath sb.basepath p) with
    | none => simp [h, hw]
    | some w =>
      simp [h, hw]
      positivity

theorem decide_scoreOf_pos (sb : SearchBox) (p : List Char) :
    decide (0 < scoreOf sb p)
      = (decide (sb.value = [])
          || (scoreAux sb.value (displayPath sb.basepath p)).isSome) := by
  simp [scoreOf_pos_iff]

theorem filter_score_pos (sb : SearchBox) (l : List (List Char)) :
    (l.filter fun p => decide (0 < scoreOf sb p))
      = l.filter fun p =>
          decide (p = p) && (decide (sb.value = [])
            || (scoreAux sb.value (displayPath sb.basepath p)).isSome) :=
  List.filter_congr fun p _ => by simp [decide_scoreOf_pos]

/-! ## C10: pure cursor movement -/

/-- C10: each of the four pure cursor-movement operations leaves the query
text unchanged and keeps the cursor offset within `[0, length(query)]`. -/
theorem cursor_moves_frame (b : SearchBox)
    (h0 : 0 ≤ b.cursorOffsetX) (h1 : b.cursorOffsetX ≤ (b.value.length : Int)) :
    ((MoveCursorOneRuneBackward b).value = b.value
      ∧ 0 ≤ (MoveCursorOneRuneBackward b).cursorOffsetX
      ∧ (MoveCursorOneRuneBackward b).cursorOffsetX ≤ (b.value.length : Int))
    ∧ ((MoveCursorOneRuneForward b).value = b.value
      ∧ 0 ≤ (MoveCursorOneRuneForward b).cursorOffsetX
      ∧ (MoveCursorOneRuneForward b).cursorOffsetX ≤ (b.value.length : Int))
    ∧ ((MoveCursorOneWordBackward b).value = b.value
      ∧ 0 ≤ (MoveCursorOneWordBackward b).cursorOffsetX
      ∧ (MoveCursorOneWordBackward b).cursorOffsetX ≤ (b.value.length : Int))
    ∧ ((MoveCursorOneWordForward b).value = b.value
      ∧ 0 ≤ (MoveCursorOneWordForward b).cursorOffsetX
      ∧ (MoveCursorOneWordForward b).cursorOffsetX ≤ (b.value.length : Int)) := by
  refine ⟨?_, ?_, ?_, ?_⟩
  · unfold MoveCursorOneRuneBackward
    split <;> simp <;> omega
  · unfold MoveCursorOneRuneForward
    split <;> simp <;> omega
  · unfold MoveCursorOneWordBackward
    split
    · exact ⟨rfl, h0, h1⟩
    · refine ⟨rfl, by positivity, ?_⟩
      have hle : (trimRight word (trimRight delim (b.value.take b.cursorOffsetX.toNat))).length
          ≤ b.value.length := by
        calc (trimRight word (trimRight delim (b.value.take b.cursorOffsetX.toNat))).length
            ≤ (trimRight delim (b.value.take b.cursorOffsetX.toNat)).length :=
              trimRight_length_le _ _
          _ ≤ (b.value.take b.cursorOffsetX.toNat).length := trimRight_length_le _ _
          _ ≤ b.value.length := by simp
      simpa using Int.ofNat_le.mpr hle
  · unfold MoveCursorOneWordForward
    split
    · exact ⟨rfl, h0, h1⟩
    · refine ⟨rfl, ?_, ?_⟩
      · have hle : (((b.value.drop b.cursorOffsetX.toNat).dropWhile delim).dropWhile word).length
            ≤ b.value.length := by
          calc (((b.value.drop b.cursorOffsetX.toNat).dropWhile delim).dropWhile word).length
              ≤ ((b.value.drop b.cursorOffsetX.toNat).dropWhile delim).length :=
                dropWhile_length_le _ _
            _ ≤ (b.value.drop b.cursorOffsetX.toNat).length := dropWhile_length_le _ _
            _ ≤ b.value.length := by simp
        simp only []
        omega
      · simp only []
        omega

/-- Closed witness for `cursor_moves_frame` at a concrete search box. -/
theorem cursor_moves_frame_witness :
    (0 ≤ (⟨['r'], 1, ['a', '-', 'b']⟩ : SearchBox).cursorOffsetX
      ∧ (⟨['r'], 1, ['a', '-', 'b']⟩ : SearchBox).cursorOffsetX
          ≤ ((⟨['r'], 1, ['a', '-', 'b']⟩ : SearchBox).value.length : Int))
    ∧ (MoveCursorOneWordForward ⟨['r'], 1, ['a', '-', 'b']⟩).value = ['a', '-', 'b'] :=
  ⟨⟨by decide, by decide⟩,
    (cursor_moves_frame ⟨['r'], 1, ['a', '-', 'b']⟩ (by decide) (by decide)).2.2.2.1⟩

/-! ## C8: empty query scores every candidate 1 -/

/-- C8: the score of any candidate against the empty query is the uniform
positive value 1. -/
theorem empty_query_scores_one (basepath p : List Char) :
    Score [] (displayPath basepath p) = 1
    ∧ (0 : ℚ) < Score [] (displayPath basepath p) := by
  constructor <;> simp [Score]

/-! ## C2: score of a full match -/

/-- C2 counterexample: for query `"a"` against relative path `"a"` the total
weight (the accumulated advance distances) is 1, but the returned score is
1/2, not `1 / total_weight = 1`: the Go accumulator starts at 1, not 0. -/
theorem score_not_inv_weight :
    scoreAux ['a'] (displayPath ['r'] ['r', '/', 'a']) = some 1
    ∧ scoreOf ⟨['r'], 0, ['a']⟩ ['r', '/', 'a'] ≠ 1 / ((1 : Nat) : ℚ) := by
  refine ⟨by decide, ?_⟩
  norm_num [scoreOf, Score, scoreAux, indexRune, displayPath]

/-- C2 (amended): for a non-empty query all of whose characters match, the
returned score is `1 / (1 + total_weight)` where `total_weight` is the sum
of the index-distances advanced per matched character. -/
theorem score_full_match (sb : SearchBox) (p : List Char) (w : Nat)
    (hq : sb.value ≠ [])
    (hw : scoreAux sb.value (displayPath sb.basepath p) = some w) :
    scoreOf sb p = 1 / (1 + (w : ℚ)) := by
  simp [scoreOf, Score, hq, hw]

/-- Closed witness for `score_full_match`: query `"b"`, candidate `r/b0`. -/
theorem score_full_match_witness :
    ((⟨['r'], 0, ['b']⟩ : SearchBox).value ≠ []
      ∧ scoreAux (⟨['r'], 0, ['b']⟩ : SearchBox).value
          (displayPath ['r'] ['r', '/', 'b', '0']) = some 1)
    ∧ scoreOf ⟨['r'], 0, ['b']⟩ ['r', '/', 'b', '0'] = 1 / (1 + ((1 : Nat) : ℚ)) :=
  ⟨⟨by decide, by decide⟩,
    score_full_match ⟨['r'], 0, ['b']⟩ ['r', '/', 'b', '0'] 1 (by decide) (by decide)⟩

/-! ## Characterizations of the selection-moving operations -/

theorem MoveSelectionDownOne_eq (h : Int) (b : ResultsBox) :
    MoveSelectionDownOne h b =
      { b with
        selected := if b.selected < (b.matchList.length : Int) - 1 then b.selected + 1
                    else b.selected,
        displayOffsetY :=
          let s1 := if b.selected < (b.matchList.length : Int) - 1 then b.selected + 1
                    else b.selected
          let o1 := if s1 < b.displayOffsetY then s1 else b.displayOffsetY
          if o1 + (h - 4) < s1 then s1 - (h - 3) + 1 else o1 } := by
  unfold MoveSelectionDownOne focusTop focusBottom
  dsimp only
  split <;> split <;> split <;> rfl

theorem MoveSelectionUpOne_eq (h : Int) (b : ResultsBox) :
    MoveSelectionUpOne h b =
      { b with
        selected := if 0 < b.selected then b.selected - 1 else b.selected,
        displayOffsetY :=
          let s1 := if 0 < b.selected then b.selected - 1 else b.selected
          let o1 := if s1 < b.displayOffsetY then s1 else b.displayOffsetY
          if o1 + (h - 4) < s1 then s1 - (h - 3) + 1 else o1 } := by
  unfold MoveSelectionUpOne focusTop focusBottom
  dsimp only
  split <;> split <;> split <;> rfl

theorem MousePress_row_eq (h y : Int) (b : ResultsBox)
    (h3 : 3 ≤ y) (hlen : y - 3 < (b.matchList.length : Int)) :
    MousePress h y b = { b with selected := y + b.displayOffsetY - 3 } := by
  unfold MousePress
  rw [if_neg (by omega), if_neg (by omega)]

/-! ## C3: the Selection invariant -/

/-- C3 counterexample: (a) after a `Recalculate` triggered by candidate
arrival, `Selection` can be `-1` with a non-empty MatchList (the clamp never
raises a `-1` selection); (b) `MousePress` compares the clicked row against
the MatchList length without adding the viewport offset, so it can set
`Selection` past the end of MatchList. -/
theorem selection_invariant_cex :
    ((Recalculate ⟨['r'], 0, []⟩ ⟨[], -1, 0, [['r', '/', 'a']]⟩).matchList ≠ []
      ∧ (Recalculate ⟨['r'], 0, []⟩ ⟨[], -1, 0, [['r', '/', 'a']]⟩).selected = -1)
    ∧ ((MousePress 8 3 ⟨[['r', '/', 'a']], 0, 5, [['r', '/', 'a']]⟩).matchList.length : Int) - 1
        < (MousePress 8 3 ⟨[['r', '/', 'a']], 0, 5, [['r', '/', 'a']]⟩).selected := by
  refine ⟨⟨?_, ?_⟩, ?_⟩ <;> decide

/-- C3 (amended): `Recalculate` keeps `Selection` in
`[-1, length(MatchList) - 1]` and forces `-1` on an empty MatchList
(given `Selection ≥ -1` beforehand), but does not restore a `-1` selection
when MatchList is non-empty; `MoveSelectionDownOne` and `MoveSelectionUpOne`
preserve the full invariant; `MousePress` is excluded. -/
theorem selection_invariant_amended :
    (∀ sb b, -1 ≤ b.selected →
      -1 ≤ (Recalculate sb b).selected
      ∧ (Recalculate sb b).selected ≤ ((Recalculate sb b).matchList.length : Int) - 1
      ∧ ((Recalculate sb b).matchList = [] → (Recalculate sb b).selected = -1))
    ∧ (∀ h b, SelInv b → SelInv (MoveSelectionDownOne h b) ∧ SelInv (MoveSelectionUpOne h b)) := by
  constructor
  · intro sb b hb
    unfold Recalculate
    dsimp only
    rw [← List.length_eq_zero]
    split <;> omega
  · intro h b hb
    obtain ⟨h1, h2, h3⟩ := hb
    rw [← List.length_eq_zero] at h3
    constructor
    · rw [MoveSelectionDownOne_eq]
      unfold SelInv
      dsimp only
      rw [← List.length_eq_zero]
      split <;> omega
    · rw [MoveSelectionUpOne_eq]
      unfold SelInv
      dsimp only
      rw [← List.length_eq_zero]
      split <;> omega

/-- Closed witness for `selection_invariant_amended`. -/
theorem selection_invariant_amended_witness :
    -1 ≤ (Recalculate ⟨['r'], 0, []⟩ ⟨[], 0, 0, [['r', '/', 'a']]⟩).selected
    ∧ SelInv (MoveSelectionDownOne 5 ⟨[['r', '/', 'a']], 0, 0, [['r', '/', 'a']]⟩) :=
  ⟨(selection_invariant_amended.1 ⟨['r'], 0, []⟩ ⟨[], 0, 0, [['r', '/', 'a']]⟩ (by decide)).1,
    (selection_invariant_amended.2 5 ⟨[['r', '/', 'a']], 0, 0, [['r', '/', 'a']]⟩ (by decide)).1⟩

/-! ## C6: the Selection-visibility invariant -/

/-- C6 counterexample: with display height 8 and a six-entry MatchList,
`Selection = 5` is the last visible row for `Viewport = 1`; a `MousePress`
at screen row 2 (inside the input region) scrolls the viewport up without
moving the selection, leaving the Selection row outside the visible
window. -/
theorem selection_visible_cex :
    (⟨[['a'], ['b'], ['c'], ['d'], ['e'], ['f']], 5, 1, []⟩ : ResultsBox).matchList ≠ []
    ∧ ¬ ((MousePress 8 2 ⟨[['a'], ['b'], ['c'], ['d'], ['e'], ['f']], 5, 1, []⟩).displayOffsetY
          ≤ (MousePress 8 2 ⟨[['a'], ['b'], ['c'], ['d'], ['e'], ['f']], 5, 1, []⟩).selected
        ∧ (MousePress 8 2 ⟨[['a'], ['b'], ['c'], ['d'], ['e'], ['f']], 5, 1, []⟩).selected
          ≤ (MousePress 8 2 ⟨[['a'], ['b'], ['c'], ['d'], ['e'], ['f']], 5, 1, []⟩).displayOffsetY
            + (8 - 3) - 1) := by
  constructor <;> decide

/-- C6 (amended): `MoveSelectionDownOne` and `MoveSelectionUpOne` re-align
the viewport so that the Selection row is visible whenever the display
height is at least 4; a `MousePress` on a list row of the screen
(`3 ≤ y ≤ h - 1`, row within MatchList) sets a visible Selection; but a
`MousePress` outside the list rows only scrolls and may leave the
Selection row invisible. -/
theorem selection_visible_amended :
    (∀ h b, 4 ≤ h → b.matchList ≠ [] →
      ((MoveSelectionDownOne h b).displayOffsetY ≤ (MoveSelectionDownOne h b).selected
        ∧ (MoveSelectionDownOne h b).selected
          ≤ (MoveSelectionDownOne h b).displayOffsetY + (h - 3) - 1)
      ∧ ((MoveSelectionUpOne h b).displayOffsetY ≤ (MoveSelectionUpOne h b).selected
        ∧ (MoveSelectionUpOne h b).selected
          ≤ (MoveSelectionUpOne h b).displayOffsetY + (h - 3) - 1))
    ∧ (∀ h y b, 3 ≤ y → y ≤ h - 1 → y - 3 < (b.matchList.length : Int) →
      (MousePress h y b).displayOffsetY ≤ (MousePress h y b).selected
      ∧ (MousePress h y b).selected ≤ (MousePress h y b).displayOffsetY + (h - 3) - 1) := by
  constructor
  · intro h b hh _
    constructor
    · rw [MoveSelectionDownOne_eq]
      dsimp only
      split <;> split <;> split <;> omega
    · rw [MoveSelectionUpOne_eq]
      dsimp only
      split <;> split <;> split <;> omega
  · intro h y b h3 hy hlen
    rw [MousePress_row_eq h y b h3 hlen]
    dsimp only
    omega

/-- Closed witness for `selection_visible_amended`. -/
theorem selection_visible_amended_witness :
    ((MoveSelectionDownOne 5 ⟨[['a'], ['b'], ['c']], 0, 0, []⟩).displayOffsetY
        ≤ (MoveSelectionDownOne 5 ⟨[['a'], ['b'], ['c']], 0, 0, []⟩).selected
      ∧ (MoveSelectionDownOne 5 ⟨[['a'], ['b'], ['c']], 0, 0, []⟩).selected
        ≤ (MoveSelectionDownOne 5 ⟨[['a'], ['b'], ['c']], 0, 0, []⟩).displayOffsetY + (5 - 3) - 1)
    ∧ ((MousePress 5 3 ⟨[['a'], ['b'], ['c']], 0, 0, []⟩).displayOffsetY
        ≤ (MousePress 5 3 ⟨[['a'], ['b'], ['c']], 0, 0, []⟩).selected
      ∧ (MousePress 5 3 ⟨[['a'], ['b'], ['c']], 0, 0, []⟩).selected
        ≤ (MousePress 5 3 ⟨[['a'], ['b'], ['c']], 0, 0, []⟩).displayOffsetY + (5 - 3) - 1) :=
  ⟨(selection_visible_amended.1 5 ⟨[['a'], ['b'], ['c']], 0, 0, []⟩ (by decide) (by decide)).1,
    selection_visible_amended.2 5 3 ⟨[['a'], ['b'], ['c']], 0, 0, []⟩ (by decide) (by decide)
      (by decide)⟩

/-! ## C7: CandidateSet grows monotonically -/

theorem mem_filepaths_AppendFilepaths {sb : SearchBox} {b : ResultsBox}
    {new : List (List Char)} {p : List Char} (hp : p ∈ b.filepaths) :
    p ∈ (AppendFilepaths sb b new).filepaths := by
  unfold AppendFilepaths
  dsimp only
  rw [List.mem_insertionSort]
  exact List.mem_append_left _ hp

theorem step_filepaths_superset (s : AppState) (o : Op) (p : List Char)
    (hp : p ∈ s.results.filepaths) : p ∈ (step s o).results.filepaths := by
  cases o <;>
    simp only [step, recalcAndSelect, SelectBestMatch, Recalculate, MoveSelectionDownOne,
      MoveSelectionUpOne, MousePress, MouseScrollDown, MouseScrollUp, focusTop, focusBottom] <;>
    (try split) <;> (try split) <;> (try split) <;>
    first
      | exact hp
      | exact mem_filepaths_AppendFilepaths hp

/-- C7: once a candidate path is in CandidateSet (`filepaths`), it is still
there after every subsequent sequence of session operations: batch
ingestion only appends and re-orders, and no other operation touches
CandidateSet. -/
theorem candidate_set_monotone (s : AppState) (p : List Char) (ops : List Op)
    (hp : p ∈ s.results.filepaths) :
    p ∈ (ops.foldl step s).results.filepaths := by
  induction ops generalizing s with
  | nil => exact hp
  | cons o os ih => exact ih _ (step_filepaths_superset s o p hp)

/-- Closed witness for `candidate_set_monotone`: the candidate survives a
batch arrival, a query edit and a selection move. -/
theorem candidate_set_monotone_witness :
    ['r', '/', 'a'] ∈ (⟨⟨['r'], 0, []⟩, ⟨[], 0, 0, [['r', '/', 'a']]⟩⟩ : AppState).results.filepaths
    ∧ ['r', '/', 'a'] ∈
      (List.foldl step ⟨⟨['r'], 0, []⟩, ⟨[], 0, 0, [['r', '/', 'a']]⟩⟩
        [.appendBatch [['r', '/', 'b']], .insertRune 'b', .moveSelectionDown 5]).results.filepaths :=
  ⟨by decide,
    candidate_set_monotone ⟨⟨['r'], 0, []⟩, ⟨[], 0, 0, [['r', '/', 'a']]⟩⟩ ['r', '/', 'a']
      [.appendBatch [['r', '/', 'b']], .insertRune 'b', .moveSelectionDown 5] (by decide)⟩

/-! ## C5: batch ingestion never moves the Selection -/

/-- C5: ingesting a crawler batch (`AppendFilepaths` followed by its
`Recalculate`) with the query unchanged leaves the Selection index
unchanged, for any Result Index state whose Selection is below the derived
MatchList length; and each batch candidate scoring 0 against the current
query enters CandidateSet but not MatchList. -/
theorem batch_keeps_selection (sb : SearchBox) (b : ResultsBox) (batch : List (List Char))
    (hsel : b.selected <
      ((b.filepaths.filter fun p => decide (0 < scoreOf sb p)).length : Int)) :
    (Recalculate sb (AppendFilepaths sb b batch)).selected = b.selected
    ∧ ∀ p ∈ batch, scoreOf sb p = 0 →
        p ∈ (Recalculate sb (AppendFilepaths sb b batch)).filepaths
        ∧ p ∉ (Recalculate sb (AppendFilepaths sb b batch)).matchList := by
  have hcount :
      ((AppendFilepaths sb b batch).filepaths.filter fun p => decide (0 < scoreOf sb p)).length
        = (b.filepaths.filter fun p => decide (0 < scoreOf sb p)).length
          + (batch.filter fun p => decide (0 < scoreOf sb p)).length := by
    unfold AppendFilepaths
    dsimp only
    rw [← List.countP_eq_length_filter, ← List.countP_eq_length_filter,
      ← List.countP_eq_length_filter,
      (List.perm_insertionSort _ _).countP_eq, List.countP_append]
  constructor
  · unfold Recalculate
    dsimp only
    rw [if_neg]
    · rfl
    · rw [hcount]
      have hsl : (AppendFilepaths sb b batch).selected = b.selected := rfl
      rw [hsl]
      push_cast
      omega
  · intro p hpb hp0
    constructor
    · show p ∈ (AppendFilepaths sb b batch).filepaths
      unfold AppendFilepaths
      dsimp only
      rw [List.mem_insertionSort]
      exact List.mem_append_right _ hpb
    · unfold Recalculate
      dsimp only
      intro hmem
      rw [List.mem_filter] at hmem
      have := of_decide_eq_true hmem.2
      rw [hp0] at this
      exact lt_irrefl _ this

/-- Closed witness for `batch_keeps_selection`: a zero-scoring batch
arrives while an entry is selected. -/
theorem batch_keeps_selection_witness :
    ((⟨[['r', '/', 'b']], 0, 0, [['r', '/', 'b']]⟩ : ResultsBox).selected <
      (((⟨[['r', '/', 'b']], 0, 0, [['r', '/', 'b']]⟩ : ResultsBox).filepaths.filter
          fun p => decide (0 < scoreOf ⟨['r'], 0, ['b']⟩ p)).length : Int))
    ∧ (Recalculate ⟨['r'], 0, ['b']⟩
        (AppendFilepaths ⟨['r'], 0, ['b']⟩ ⟨[['r', '/', 'b']], 0, 0, [['r', '/', 'b']]⟩
          [['r', '/', 'a']])).selected
      = (⟨[['r', '/', 'b']], 0, 0, [['r', '/', 'b']]⟩ : ResultsBox).selected :=
  ⟨by rw [filter_score_pos]; decide,
    (batch_keeps_selection ⟨['r'], 0, ['b']⟩ ⟨[['r', '/', 'b']], 0, 0, [['r', '/', 'b']]⟩
      [['r', '/', 'a']] (by rw [filter_score_pos]; decide)).1⟩

/-! ## C1: score is zero exactly on failed subsequence match -/

theorem indexRune_eq_none (l : List Char) (q : Char) :
    indexRune l q = none ↔ q ∉ l := by
  induction l with
  | nil => simp [indexRune]
  | cons c cs ih =>
    by_cases h : c = q
    · simp [indexRune, h]
    · simp only [indexRune, if_neg h, Option.map_eq_none', ih, List.mem_cons, not_or]
      exact ⟨fun hq => ⟨fun hqc => h hqc.symm, hq⟩, fun hq => hq.2⟩

theorem indexRune_some_split (l : List Char) (q : Char) (i : Nat)
    (h : indexRune l q = some i) :
    l = l.take i ++ q :: l.drop (i + 1) ∧ q ∉ l.take i := by
  induction l generalizing i with
  | nil => simp [indexRune] at h
  | cons c cs ih =>
    by_cases hc : c = q
    · simp only [indexRune, if_pos hc] at h
      obtain rfl : (0 : Nat) = i := Option.some_injective _ h
      simp [hc]
    · simp only [indexRune, if_neg hc] at h
      obtain ⟨j, hj, rfl⟩ := Option.map_eq_some'.mp h
      obtain ⟨hsplit, hmem⟩ := ih j hj
      constructor
      · calc c :: cs = c :: (cs.take j ++ q :: cs.drop (j + 1)) := by rw [← hsplit]
          _ = (c :: cs).take (j + 1) ++ q :: (c :: cs).drop (j + 1 + 1) := by
              simp [List.take_succ_cons, List.drop_succ_cons]
      · intro hq
        rcases List.mem_cons.mp hq with hq | hq
        · exact hc hq.symm
        · exact hmem hq

theorem cons_sublist_split (a : Char) (t l1 l2 : List Char) (h1 : a ∉ l1) :
    (a :: t).Sublist (l1 ++ a :: l2) ↔ t.Sublist l2 := by
  constructor
  · intro h
    induction l1 with
    | nil =>
      cases h with
      | cons _ h => exact (List.sublist_cons_self a t).trans h
      | cons₂ _ h => exact h
    | cons b l1' ih =>
      have hab : a ≠ b := fun hab => h1 (hab ▸ List.mem_cons_self b l1')
      cases h with
      | cons _ h => exact ih (fun hm => h1 (List.mem_cons_of_mem b hm)) h
      | cons₂ _ h => exact absurd rfl hab
  · intro h
    exact (h.cons₂ a).trans (List.sublist_append_right l1 (a :: l2))

theorem scoreAux_eq_none_iff (q s : List Char) :
    scoreAux q s = none
      ↔ ¬ ((q.map Char.toLower).Sublist (s.map Char.toLower)) := by
  induction q generalizing s with
  | nil => simp [scoreAux]
  | cons q qs ih =>
    simp only [scoreAux, List.map_cons]
    cases hidx : indexRune (s.map Char.toLower) q.toLower with
    | none =>
      rw [indexRune_eq_none] at hidx
      simp only [true_iff]
      intro hsub
      exact hidx (hsub.subset (List.mem_cons_self _ _))
    | some idx =>
      obtain ⟨hsplit, hnotmem⟩ := indexRune_some_split _ _ _ hidx
      have hmap : ((s.map Char.toLower).drop (idx + 1)).map Char.toLower
          = (s.map Char.toLower).drop (idx + 1) := by
        rw [List.map_drop, map_toLower_idem]
      have hih := ih ((s.map Char.toLower).drop (idx + 1))
      rw [hmap] at hih
      have key : (q.toLower :: qs.map Char.toLower).Sublist (s.map Char.toLower)
          ↔ (qs.map Char.toLower).Sublist ((s.map Char.toLower).drop (idx + 1)) := by
        conv_lhs => rw [hsplit]
        exact cons_sublist_split _ _ _ _ hnotmem
      rw [Option.map_eq_none', hih, key]

/-- C1: a candidate scores 0 against the current query exactly when the
query's characters cannot be found as a case-insensitive
strictly-increasing-position subsequence of the candidate's root-relative
path (greedy left-to-right scanning is complete for subsequence search). -/
theorem score_zero_iff_no_subsequence (sb : SearchBox) (p : List Char) :
    scoreOf sb p = 0
      ↔ ¬ ((sb.value.map Char.toLower).Sublist
            ((displayPath sb.basepath p).map Char.toLower)) := by
  unfold scoreOf Score
  split
  · next h =>
    rw [h]
    simp [List.nil_sublist]
  · next h =>
    cases hw : scoreAux sb.value (displayPath sb.basepath p) with
    | none =>
      simp only [true_iff]
      exact (scoreAux_eq_none_iff _ _).mp hw
    | some w =>
      have hne : (1 : ℚ) / (1 + (w : ℚ)) ≠ 0 := by positivity
      simp only [hne, false_iff, not_not]
      by_contra hsub
      rw [← scoreAux_eq_none_iff] at hsub
      rw [hw] at hsub
      exact Option.noConfusion hsub

/-! ## C9: confirming a selection -/

/-- C9: the confirm guard returns "." for `Selection = -1` or an empty
MatchList, and the selected candidate for an in-range Selection — but it
does not guard `Selection ≥ length(MatchList)`, and such states are
reachable: starting from the initial state, ingesting the root and a batch
of two subdirectories, scrolling down three times (height 4) and pressing
mouse row 3 leaves `Selection = 3` with a three-entry MatchList, so
confirming indexes out of bounds (the Go code panics; modelled as
`none`). -/
theorem selected_panics_after_scrolled_press :
    SelectedResult
      ((List.foldl step ⟨⟨['r'], 0, []⟩, ⟨[], 0, 0, []⟩⟩
        [.appendBatch [['r']],
         .appendBatch [['r', '/', 'b', '0'], ['r', '/', 'b', '1']],
         .mouseScrollDown 4, .mouseScrollDown 4, .mouseScrollDown 4,
         .mousePress 4 3]).results) = none := by
  decide

/-! ## C4: mouse release after a drag -/

/-- C4: a mouse release whose preceding mouse event was classified as a
drag is meant to be suppressed, but `pollEvents` still sends the Go
zero-valued `event{}` best-effort, whose `evType` is
`EventMoveCursorForwardOneRune` (iota 0); the event loop then moves the
query cursor forward, as shown on a concrete state. -/
theorem release_after_drag_emits_command :
    (mouseStep { zeroEvent with evType := .mouseDrag, mouseX := 4, mouseY := 7 }
        .release 4 8).evType = EvT.moveCursorForwardOneRune
    ∧ (runStep 10 ⟨⟨['r'], 0, ['a', 'b']⟩, ⟨[], 0, 0, []⟩⟩
        (mouseStep { zeroEvent with evType := .mouseDrag, mouseX := 4, mouseY := 7 }
          .release 4 8)).search.cursorOffsetX = 1 := by
  constructor <;> decide

end Nav
